import Mathlib

/-!
Shallow embedding of the cimenabot query-resolution and caching pipeline
(src/utils/cache.py, src/utils/api.py, src/handlers/search.py,
src/handlers/commands.py, src/utils/helpers.py).

Modelling conventions:
* Python strings are modelled as Lean `String` (in this toolchain a wrapper
  around `List Char`, matching Python's sequence-of-code-points view); where
  character-level reasoning is needed we work on the underlying `List Char`.
* `time.time()` timestamps are modelled as rationals `ℚ` (floats are
  rationals; no float rounding is relevant to any claim here).
* The JSON cache files are modelled as maps from cache key to entry
  (`String → Option _`), exactly the dictionary the Python code reads,
  mutates at one key, and writes back.
* The external `hashlib.md5(...).hexdigest()` digest is a parameter
  `md5hex : String → String`: every claim about the cache holds for an
  arbitrary digest function.
* Network calls are modelled by passing the outcome of the HTTP request as
  an explicit value.
-/

namespace Cimenabot

/-- Whitespace test used by Python `str.split()` / `str.strip()`
(modelled by `Char.isWhitespace`, exact on the ASCII whitespace
characters that occur in queries here). -/
def isWs (c : Char) : Bool := c.isWhitespace

/-- Python `text.lower()` on the character list. `Char.toLower` models
`str.lower` character-wise (exact on the ASCII range, which covers every
concrete string a theorem below evaluates). -/
def pyLowerChars (l : List Char) : List Char := l.map Char.toLower

/-- Python `str.split()` with no separator: split on runs of whitespace,
producing no empty words. -/
def pySplitWs : List Char → List (List Char)
  | [] => []
  | c :: rest =>
    if isWs c then pySplitWs rest
    else
      match rest with
      | [] => [[c]]
      | d :: _ =>
        if isWs d then [c] :: pySplitWs rest
        else
          match pySplitWs rest with
          | [] => [[c]]
          | w :: ws => (c :: w) :: ws

/-- Python `' '.join(words)` on character lists. -/
def joinSp : List (List Char) → List Char
  | [] => []
  | w :: ws =>
    match ws with
    | [] => w
    | _ :: _ => w ++ ' ' :: joinSp ws

/-- Character-level body of the normalisation inside `get_cache_key`
(cache.py line 30): `' '.join(text.lower().split())`. -/
def normalizeChars (l : List Char) : List Char :=
  joinSp (pySplitWs (pyLowerChars l))

/-- The normalised query computed inside `get_cache_key` (cache.py 27-32). -/
def normalizeQuery (s : String) : String := ⟨normalizeChars s.data⟩

/-- `get_cache_key` (cache.py 27-32): md5 hex digest of the normalised
query. `md5hex` stands for the external `hashlib.md5(...).hexdigest()`
composed with UTF-8 encoding. -/
def get_cache_key (md5hex : String → String) (text : String) : String :=
  md5hex (normalizeQuery text)

/-- Seconds in the expiry window: `CACHE_EXPIRY_DAYS * 24 * 60 * 60` with
`CACHE_EXPIRY_DAYS = 21` (cache.py lines 12, 82, 143, 180). -/
def cacheExpirySeconds : ℚ := 21 * 24 * 60 * 60

/-- The expiry window in seconds, as a plain numeral. -/
theorem cacheExpirySeconds_eq : cacheExpirySeconds = 1814400 := by
  norm_num [cacheExpirySeconds]

/-- One value of the movie-metadata cache object:
`cache[cache_key] = {'timestamp': ..., 'data': ..., 'original_query': ...}`
(cache.py 44-48). `α` is the type of the stored movie payload. -/
structure MovieCacheEntry (α : Type) where
  timestamp : ℚ
  data : α
  original_query : String
deriving DecidableEq, Repr

/-- Contents of the `movie_data.json` table: cache key → entry. -/
def MovieCache (α : Type) : Type := String → Option (MovieCacheEntry α)

/-- `save_movie_to_cache` (cache.py 34-58): load the whole table, overwrite
the one key with a fresh timestamped entry, write the whole table back.
Returns the updated table (the Python function returns `True` on this
path; the I/O-failure path is a logged no-op outside the pure model). -/
def save_movie_to_cache (md5hex : String → String) (now : ℚ) (query : String)
    (movie_data : α) (cache : MovieCache α) : MovieCache α :=
  fun k =>
    if k = get_cache_key md5hex query then
      some { timestamp := now, data := movie_data, original_query := query }
    else cache k

/-- `get_movie_from_cache` (cache.py 60-93): look the fingerprint up,
treat a missing key as a miss, treat `now - timestamp > window` as a miss.
The second component is the table state after the call: the source only
ever opens the file for reading here, so it is returned unchanged (lazy
expiry — expired entries are not deleted). -/
def get_movie_from_cache (md5hex : String → String) (now : ℚ) (query : String)
    (cache : MovieCache α) : Option α × MovieCache α :=
  match cache (get_cache_key md5hex query) with
  | none => (none, cache)
  | some e =>
    if now - e.timestamp > cacheExpirySeconds then (none, cache)
    else (some e.data, cache)

/-- One Rutube link dictionary `{'name': ..., 'url': ..., 'from_cache': ...}`
(api.py 57-61). -/
structure RutubeLink where
  name : String
  url : String
  from_cache : Bool
deriving DecidableEq, Repr

/-- One value of the Rutube links cache object:
`cache[cache_key] = {'timestamp': ..., 'links': ..., 'original_query': ...}`
(cache.py 105-109). -/
structure RutubeCacheEntry where
  timestamp : ℚ
  links : List RutubeLink
  original_query : String
deriving DecidableEq, Repr

/-- Contents of the `rutube_links.json` table: cache key → entry. -/
def RutubeCache : Type := String → Option RutubeCacheEntry

/-- `save_rutube_to_cache` (cache.py 95-119): same read-full /
mutate-one-key / write-full shape as the movie table. -/
def save_rutube_to_cache (md5hex : String → String) (now : ℚ) (query : String)
    (links : List RutubeLink) (cache : RutubeCache) : RutubeCache :=
  fun k =>
    if k = get_cache_key md5hex query then
      some { timestamp := now, links := links, original_query := query }
    else cache k

/-- `get_rutube_from_cache` (cache.py 121-159), value level. The per-element
`dict(link)` copy loop of lines 151-154 is the identity on values, rendered
here as the `List.map`; the heap-level model below makes the copying itself
observable. The table is returned unchanged (read-only, lazy expiry). -/
def get_rutube_from_cache (md5hex : String → String) (now : ℚ) (query : String)
    (cache : RutubeCache) : Option (List RutubeLink) × RutubeCache :=
  match cache (get_cache_key md5hex query) with
  | none => (none, cache)
  | some e =>
    if now - e.timestamp > cacheExpirySeconds then (none, cache)
    else (some (e.links.map (fun link => link)), cache)

/-! Helper lemmas about the two cache tables. -/

theorem get_movie_hit {α : Type} (md5hex : String → String) (now : ℚ)
    (q : String) (cache : MovieCache α) (e : MovieCacheEntry α)
    (h : cache (get_cache_key md5hex q) = some e)
    (hfresh : ¬ now - e.timestamp > cacheExpirySeconds) :
    get_movie_from_cache md5hex now q cache = (some e.data, cache) := by
  unfold get_movie_from_cache
  rw [h]
  simp [hfresh]

theorem get_movie_expired {α : Type} (md5hex : String → String) (now : ℚ)
    (q : String) (cache : MovieCache α) (e : MovieCacheEntry α)
    (h : cache (get_cache_key md5hex q) = some e)
    (hexp : now - e.timestamp > cacheExpirySeconds) :
    get_movie_from_cache md5hex now q cache = (none, cache) := by
  unfold get_movie_from_cache
  rw [h]
  simp [hexp]

theorem get_rutube_hit (md5hex : String → String) (now : ℚ)
    (q : String) (cache : RutubeCache) (e : RutubeCacheEntry)
    (h : cache (get_cache_key md5hex q) = some e)
    (hfresh : ¬ now - e.timestamp > cacheExpirySeconds) :
    get_rutube_from_cache md5hex now q cache = (some e.links, cache) := by
  unfold get_rutube_from_cache
  rw [h]
  simp [hfresh]

theorem get_rutube_expired (md5hex : String → String) (now : ℚ)
    (q : String) (cache : RutubeCache) (e : RutubeCacheEntry)
    (h : cache (get_cache_key md5hex q) = some e)
    (hexp : now - e.timestamp > cacheExpirySeconds) :
    get_rutube_from_cache md5hex now q cache = (none, cache) := by
  unfold get_rutube_from_cache
  rw [h]
  simp [hexp]

theorem save_movie_at_key {α : Type} (md5hex : String → String) (now : ℚ)
    (q : String) (v : α) (cache : MovieCache α) :
    save_movie_to_cache md5hex now q v cache (get_cache_key md5hex q)
      = some { timestamp := now, data := v, original_query := q } := by
  simp [save_movie_to_cache]

theorem save_rutube_at_key (md5hex : String → String) (now : ℚ)
    (q : String) (links : List RutubeLink) (cache : RutubeCache) :
    save_rutube_to_cache md5hex now q links cache (get_cache_key md5hex q)
      = some { timestamp := now, links := links, original_query := q } := by
  simp [save_rutube_to_cache]

/-- C2: for every entry written to the metadata or links cache at time `T`,
a get at `now = T + 21d - ε` is a hit and a get at `now = T + 21d + ε` is a
miss; the expired entry is not deleted (lazy expiry): the table after the
miss is unchanged and still carries the entry. -/
theorem cache_expiry_boundary {α : Type} (md5hex : String → String)
    (T ε : ℚ) (q : String) (v : α) (links : List RutubeLink)
    (mc : MovieCache α) (rc : RutubeCache) (hε : 0 < ε) :
    (get_movie_from_cache md5hex (T + cacheExpirySeconds - ε) q
        (save_movie_to_cache md5hex T q v mc)).1 = some v ∧
    (get_movie_from_cache md5hex (T + cacheExpirySeconds + ε) q
        (save_movie_to_cache md5hex T q v mc)).1 = none ∧
    (get_movie_from_cache md5hex (T + cacheExpirySeconds + ε) q
        (save_movie_to_cache md5hex T q v mc)).2
      = save_movie_to_cache md5hex T q v mc ∧
    (get_movie_from_cache md5hex (T + cacheExpirySeconds + ε) q
        (save_movie_to_cache md5hex T q v mc)).2 (get_cache_key md5hex q)
      = some { timestamp := T, data := v, original_query := q } ∧
    (get_rutube_from_cache md5hex (T + cacheExpirySeconds - ε) q
        (save_rutube_to_cache md5hex T q links rc)).1 = some links ∧
    (get_rutube_from_cache md5hex (T + cacheExpirySeconds + ε) q
        (save_rutube_to_cache md5hex T q links rc)).1 = none ∧
    (get_rutube_from_cache md5hex (T + cacheExpirySeconds + ε) q
        (save_rutube_to_cache md5hex T q links rc)).2
      = save_rutube_to_cache md5hex T q links rc ∧
    (get_rutube_from_cache md5hex (T + cacheExpirySeconds + ε) q
        (save_rutube_to_cache md5hex T q links rc)).2 (get_cache_key md5hex q)
      = some { timestamp := T, links := links, original_query := q } := by
  have hm := save_movie_at_key md5hex T q v mc
  have hr := save_rutube_at_key md5hex T q links rc
  have hfresh : ¬ (T + cacheExpirySeconds - ε) - T > cacheExpirySeconds := by
    simp only [not_lt]
    linarith
  have hexp : (T + cacheExpirySeconds + ε) - T > cacheExpirySeconds := by
    linarith
  refine ⟨?_, ?_, ?_, ?_, ?_, ?_, ?_, ?_⟩
  · rw [get_movie_hit md5hex _ q _ _ hm hfresh]
  · rw [get_movie_expired md5hex _ q _ _ hm hexp]
  · rw [get_movie_expired md5hex _ q _ _ hm hexp]
  · rw [get_movie_expired md5hex _ q _ _ hm hexp]
    exact hm
  · rw [get_rutube_hit md5hex _ q _ _ hr hfresh]
  · rw [get_rutube_expired md5hex _ q _ _ hr hexp]
  · rw [get_rutube_expired md5hex _ q _ _ hr hexp]
  · rw [get_rutube_expired md5hex _ q _ _ hr hexp]
    exact hr

/-- C2 witness: the boundary theorem instantiated at `md5hex = id`,
`T = 0`, `ε = 1`, payload `0`, empty link list, empty tables. -/
theorem cache_expiry_boundary_witness :
    (0 : ℚ) < 1 ∧
    ((get_movie_from_cache id ((0 : ℚ) + cacheExpirySeconds - 1) "q"
        (save_movie_to_cache id 0 "q" (0 : ℕ) (fun _ => none))).1 = some 0 ∧
      (get_movie_from_cache id ((0 : ℚ) + cacheExpirySeconds + 1) "q"
        (save_movie_to_cache id 0 "q" (0 : ℕ) (fun _ => none))).1 = none ∧
      (get_movie_from_cache id ((0 : ℚ) + cacheExpirySeconds + 1) "q"
        (save_movie_to_cache id 0 "q" (0 : ℕ) (fun _ => none))).2
        = save_movie_to_cache id 0 "q" (0 : ℕ) (fun _ => none) ∧
      (get_movie_from_cache id ((0 : ℚ) + cacheExpirySeconds + 1) "q"
        (save_movie_to_cache id 0 "q" (0 : ℕ) (fun _ => none))).2
          (get_cache_key id "q")
        = some { timestamp := 0, data := 0, original_query := "q" } ∧
      (get_rutube_from_cache id ((0 : ℚ) + cacheExpirySeconds - 1) "q"
        (save_rutube_to_cache id 0 "q" [] (fun _ => none))).1 = some [] ∧
      (get_rutube_from_cache id ((0 : ℚ) + cacheExpirySeconds + 1) "q"
        (save_rutube_to_cache id 0 "q" [] (fun _ => none))).1 = none ∧
      (get_rutube_from_cache id ((0 : ℚ) + cacheExpirySeconds + 1) "q"
        (save_rutube_to_cache id 0 "q" [] (fun _ => none))).2
        = save_rutube_to_cache id 0 "q" [] (fun _ => none) ∧
      (get_rutube_from_cache id ((0 : ℚ) + cacheExpirySeconds + 1) "q"
        (save_rutube_to_cache id 0 "q" [] (fun _ => none))).2
          (get_cache_key id "q")
        = some { timestamp := 0, links := [], original_query := "q" }) :=
  ⟨by decide,
    cache_expiry_boundary id 0 1 "q" (0 : ℕ) [] (fun _ => none) (fun _ => none)
      (by decide)⟩

/-- C3: for both namespaces, immediately after `put(ns, q, v)` a
`get(ns, q)` returns `Some v`, as long as the clock has not advanced past
the 21-day window. -/
theorem cache_put_get_roundtrip {α : Type} (md5hex : String → String)
    (now now' : ℚ) (q : String) (v : α) (links : List RutubeLink)
    (mc : MovieCache α) (rc : RutubeCache)
    (hwin : now' - now ≤ cacheExpirySeconds) :
    (get_movie_from_cache md5hex now' q
        (save_movie_to_cache md5hex now q v mc)).1 = some v ∧
    (get_rutube_from_cache md5hex now' q
        (save_rutube_to_cache md5hex now q links rc)).1 = some links := by
  have hm := save_movie_at_key md5hex now q v mc
  have hr := save_rutube_at_key md5hex now q links rc
  have hfresh : ¬ now' - now > cacheExpirySeconds := not_lt.mpr hwin
  refine ⟨?_, ?_⟩
  · rw [get_movie_hit md5hex now' q _ _ hm hfresh]
  · rw [get_rutube_hit md5hex now' q _ _ hr hfresh]

/-- C3 witness: round-trip at `md5hex = id`, write time `0`, read time `1`,
payload `7`, a one-element link list. -/
theorem cache_put_get_roundtrip_witness :
    ((1 : ℚ) - 0 ≤ cacheExpirySeconds) ∧
    ((get_movie_from_cache id 1 "q"
        (save_movie_to_cache id 0 "q" (7 : ℕ) (fun _ => none))).1 = some 7 ∧
      (get_rutube_from_cache id 1 "q"
        (save_rutube_to_cache id 0 "q" [{ name := "n", url := "u", from_cache := false }]
          (fun _ => none))).1
        = some [{ name := "n", url := "u", from_cache := false }]) :=
  ⟨by simp [cacheExpirySeconds_eq],
    cache_put_get_roundtrip id 0 1 "q" (7 : ℕ)
      [{ name := "n", url := "u", from_cache := false }]
      (fun _ => none) (fun _ => none) (by simp [cacheExpirySeconds_eq])⟩

/-- C8: a `put` on either table only overwrites the written fingerprint's
entry: every key with a different fingerprint keeps its stored entry, and a
`get` for a query with a different fingerprint is unchanged by the put. -/
theorem cache_put_frame {α : Type} (md5hex : String → String)
    (now now' : ℚ) (q q' : String) (v : α) (links : List RutubeLink)
    (mc : MovieCache α) (rc : RutubeCache)
    (hk : get_cache_key md5hex q' ≠ get_cache_key md5hex q) :
    save_movie_to_cache md5hex now q v mc (get_cache_key md5hex q')
      = mc (get_cache_key md5hex q') ∧
    (get_movie_from_cache md5hex now' q'
        (save_movie_to_cache md5hex now q v mc)).1
      = (get_movie_from_cache md5hex now' q' mc).1 ∧
    save_rutube_to_cache md5hex now q links rc (get_cache_key md5hex q')
      = rc (get_cache_key md5hex q') ∧
    (get_rutube_from_cache md5hex now' q'
        (save_rutube_to_cache md5hex now q links rc)).1
      = (get_rutube_from_cache md5hex now' q' rc).1 := by
  have hm : save_movie_to_cache md5hex now q v mc (get_cache_key md5hex q')
      = mc (get_cache_key md5hex q') := by
    simp [save_movie_to_cache, hk]
  have hr : save_rutube_to_cache md5hex now q links rc (get_cache_key md5hex q')
      = rc (get_cache_key md5hex q') := by
    simp [save_rutube_to_cache, hk]
  refine ⟨hm, ?_, hr, ?_⟩
  · unfold get_movie_from_cache
    rw [hm]
    rcases mc (get_cache_key md5hex q') with _ | e
    · rfl
    · by_cases hc : now' - e.timestamp > cacheExpirySeconds <;> simp [hc]
  · unfold get_rutube_from_cache
    rw [hr]
    rcases rc (get_cache_key md5hex q') with _ | e
    · rfl
    · by_cases hc : now' - e.timestamp > cacheExpirySeconds <;> simp [hc]

/-- C8 witness: writing `"a"` leaves the entry and the read result for the
differently-fingerprinted query `"b"` untouched. -/
theorem cache_put_frame_witness :
    (get_cache_key id "b" ≠ get_cache_key id "a") ∧
    (save_movie_to_cache id 0 "a" (5 : ℕ) (fun _ => none) (get_cache_key id "b")
        = (fun _ => none : MovieCache ℕ) (get_cache_key id "b") ∧
      (get_movie_from_cache id 1 "b"
          (save_movie_to_cache id 0 "a" (5 : ℕ) (fun _ => none))).1
        = (get_movie_from_cache id 1 "b" (fun _ => none : MovieCache ℕ)).1 ∧
      save_rutube_to_cache id 0 "a" [] (fun _ => none) (get_cache_key id "b")
        = (fun _ => none : RutubeCache) (get_cache_key id "b") ∧
      (get_rutube_from_cache id 1 "b"
          (save_rutube_to_cache id 0 "a" [] (fun _ => none))).1
        = (get_rutube_from_cache id 1 "b" (fun _ => none : RutubeCache)).1) :=
  ⟨by decide,
    cache_put_frame id 0 1 "a" "b" (5 : ℕ) [] (fun _ => none) (fun _ => none)
      (by decide)⟩

/-! The Link Adapter: `search_rutube_api` (api.py 17-69). -/

/-- One raw result dictionary of the Rutube search response, with the two
fields the code reads (`result.get('title', '')`, `result.get('video_url', '')`;
the defaults make both total strings). -/
structure RutubeRawResult where
  title : String
  video_url : String
deriving DecidableEq, Repr

/-- The result-processing loop (api.py 47-62): walk the results in order,
stop once `count >= 3`, keep entries with a non-empty `video_url`, each
stored verbatim as `{'name': title, 'url': video_url, 'from_cache': False}`.
Line 52 (`title = result.get('title', '')`) reassigns the function
parameter `title`, so the loop also yields the final value of `title`:
the title of the last result whose assignment ran, or the incoming
argument when none did. -/
def processRutubeResults : List RutubeRawResult → ℕ → String →
    List RutubeLink × String
  | [], _, title => ([], title)
  | r :: rs, count, title =>
    if count ≥ 3 then ([], title)
    else if r.video_url ≠ "" then
      ({ name := r.title, url := r.video_url, from_cache := false }
          :: (processRutubeResults rs (count + 1) r.title).1,
        (processRutubeResults rs (count + 1) r.title).2)
    else processRutubeResults rs count r.title

/-- Outcome of the HTTP request inside `search_rutube_api`:
HTTP 200 with a parsed result list, a non-200 status (the response branch
is skipped, no exception), or a raised exception (timeout, connection
failure, JSON failure) caught by the `except` on api.py 63-64. -/
inductive RutubeNetOutcome
  | ok (results : List RutubeRawResult)
  | badStatus
  | failure
deriving DecidableEq, Repr

/-- `search_rutube_api` (api.py 17-69), value level. On a cache hit the
cached links are returned with `from_cache` forced to `True` and no network
request is made (`net` is ignored); on a miss the request outcome `net`
determines `rutube_links`, and `save_rutube_to_cache(title, rutube_links)`
is then called unconditionally (api.py 67) — also when the list is empty
because the request failed. Because the loop reassigns `title` (api.py 52),
a 200 response with at least one result caches under the last examined
result's title, while the failure / non-200 / empty-result paths cache
under the original query. Returns the link list and the links table after
the call. -/
def search_rutube_api (md5hex : String → String) (now : ℚ)
    (net : RutubeNetOutcome) (title : String) (cache : RutubeCache) :
    List RutubeLink × RutubeCache :=
  match (get_rutube_from_cache md5hex now title cache).1 with
  | some cached_links =>
    (cached_links.map (fun link => { link with from_cache := true }), cache)
  | none =>
    match net with
    | .ok results =>
      ((processRutubeResults results 0 title).1,
        save_rutube_to_cache md5hex now (processRutubeResults results 0 title).2
          (processRutubeResults results 0 title).1 cache)
    | .badStatus => ([], save_rutube_to_cache md5hex now title [] cache)
    | .failure => ([], save_rutube_to_cache md5hex now title [] cache)

/-- On a cache hit, `search_rutube_api` returns the cached links with
`from_cache` set and does not touch the table (api.py 20-26). -/
theorem search_rutube_api_hit (md5hex : String → String) (now : ℚ)
    (net : RutubeNetOutcome) (title : String) (cache : RutubeCache)
    (ls : List RutubeLink)
    (h : (get_rutube_from_cache md5hex now title cache).1 = some ls) :
    search_rutube_api md5hex now net title cache
      = (ls.map (fun link => { link with from_cache := true }), cache) := by
  unfold search_rutube_api
  rw [h]

/-- On a cache miss with a failed request, `search_rutube_api` returns `[]`
and writes `[]` into the table. -/
theorem search_rutube_api_miss_failure (md5hex : String → String) (now : ℚ)
    (title : String) (cache : RutubeCache)
    (h : (get_rutube_from_cache md5hex now title cache).1 = none) :
    search_rutube_api md5hex now .failure title cache
      = ([], save_rutube_to_cache md5hex now title [] cache) := by
  unfold search_rutube_api
  rw [h]

/-- On a cache miss with an HTTP 200 response, `search_rutube_api` returns
the processed links and writes them into the table — under the final value
of the loop-reassigned `title` variable. -/
theorem search_rutube_api_miss_ok (md5hex : String → String) (now : ℚ)
    (results : List RutubeRawResult) (title : String) (cache : RutubeCache)
    (h : (get_rutube_from_cache md5hex now title cache).1 = none) :
    search_rutube_api md5hex now (.ok results) title cache
      = ((processRutubeResults results 0 title).1,
          save_rutube_to_cache md5hex now (processRutubeResults results 0 title).2
            (processRutubeResults results 0 title).1 cache) := by
  unfold search_rutube_api
  rw [h]

/-- C1 counterexample: with an empty links table, a provider failure for
query `"x"` at time `0` returns the empty list, but that empty list IS
written to the links cache — and an identical query one second later is
served the cached empty list without attempting the network (the result is
the cached `[]` even though the network would now return a usable link). -/
theorem search_rutube_api_failure_written_to_cache :
    (search_rutube_api id 0 .failure "x" (fun _ => none)).1 = [] ∧
    ¬ ((search_rutube_api id 0 .failure "x" (fun _ => none)).2
        (get_cache_key id "x") = none) ∧
    (search_rutube_api id 0 .failure "x" (fun _ => none)).2 (get_cache_key id "x")
      = some { timestamp := 0, links := [], original_query := "x" } ∧
    (search_rutube_api id 1
        (.ok [{ title := "Venom", video_url := "https://rutube.ru/video/1/" }])
        "x" (search_rutube_api id 0 .failure "x" (fun _ => none)).2).1 = [] := by
  have hmiss : (get_rutube_from_cache id 0 "x" (fun _ => none)).1 = none := by
    decide
  have h1 := search_rutube_api_miss_failure id 0 "x" (fun _ => none) hmiss
  have hhit : (get_rutube_from_cache id 1 "x"
      (search_rutube_api id 0 .failure "x" (fun _ => none)).2).1 = some [] := by
    rw [h1]
    rw [get_rutube_hit id 1 "x" _ { timestamp := 0, links := [], original_query := "x" }
      (save_rutube_at_key id 0 "x" [] (fun _ => none))
      (by simp [cacheExpirySeconds_eq])]
  refine ⟨?_, ?_, ?_, ?_⟩
  · rw [h1]
  · rw [h1]
    simp [save_rutube_to_cache]
  · rw [h1]
    exact save_rutube_at_key id 0 "x" [] (fun _ => none)
  · rw [search_rutube_api_hit id 1 _ "x" _ [] hhit]
    rfl

/-- C1 amended: if `search_rutube_api` misses the cache and the provider
fails, it returns the empty list and writes that empty list to the links
cache; any identical query within the expiry window is then served the
cached empty list — it does not retry the network (the second call's result
and final table state are the same for every network outcome `net'`). -/
theorem search_rutube_api_failure_caches_empty (md5hex : String → String)
    (now now' : ℚ) (net' : RutubeNetOutcome) (title : String)
    (cache : RutubeCache)
    (hmiss : (get_rutube_from_cache md5hex now title cache).1 = none)
    (hwin : ¬ now' - now > cacheExpirySeconds) :
    (search_rutube_api md5hex now .failure title cache).1 = [] ∧
    (search_rutube_api md5hex now .failure title cache).2
        (get_cache_key md5hex title)
      = some { timestamp := now, links := [], original_query := title } ∧
    search_rutube_api md5hex now' net' title
        (search_rutube_api md5hex now .failure title cache).2
      = ([], (search_rutube_api md5hex now .failure title cache).2) := by
  have h1 := search_rutube_api_miss_failure md5hex now title cache hmiss
  have hhit : (get_rutube_from_cache md5hex now' title
      (search_rutube_api md5hex now .failure title cache).2).1 = some [] := by
    rw [h1]
    rw [get_rutube_hit md5hex now' title _
      { timestamp := now, links := [], original_query := title }
      (save_rutube_at_key md5hex now title [] cache) hwin]
  refine ⟨?_, ?_, ?_⟩
  · rw [h1]
  · rw [h1]
    exact save_rutube_at_key md5hex now title [] cache
  · rw [search_rutube_api_hit md5hex now' net' title _ [] hhit]
    rfl

/-- C1 amended witness: failure at time `0` for `"x"` on the empty table,
second call one second later with a working network. -/
theorem search_rutube_api_failure_caches_empty_witness :
    ((get_rutube_from_cache id 0 "x" (fun _ => none)).1 = none ∧
      ¬ (1 : ℚ) - 0 > cacheExpirySeconds) ∧
    ((search_rutube_api id 0 .failure "x" (fun _ => none)).1 = [] ∧
      (search_rutube_api id 0 .failure "x" (fun _ => none)).2
          (get_cache_key id "x")
        = some { timestamp := 0, links := [], original_query := "x" } ∧
      search_rutube_api id 1
          (.ok [{ title := "Venom", video_url := "https://rutube.ru/video/1/" }])
          "x" (search_rutube_api id 0 .failure "x" (fun _ => none)).2
        = ([], (search_rutube_api id 0 .failure "x" (fun _ => none)).2)) :=
  ⟨⟨by decide, by simp [cacheExpirySeconds_eq]⟩,
    search_rutube_api_failure_caches_empty id 0 1
      (.ok [{ title := "Venom", video_url := "https://rutube.ru/video/1/" }])
      "x" (fun _ => none) (by decide) (by simp [cacheExpirySeconds_eq])⟩

/-- Does the pattern match at the start of the list? (Python
`str.startswith`, character-level.) -/
def matchesAt : List Char → List Char → Bool
  | [], _ => true
  | _ :: _, [] => false
  | a :: pat, b :: s => a == b && matchesAt pat s

/-- Does the pattern occur contiguously anywhere in the list? (Python `in`
on strings, character-level.) -/
def occursIn (pat : List Char) : List Char → Bool
  | [] => matchesAt pat []
  | c :: rest => matchesAt pat (c :: rest) || occursIn pat rest

/-- The URL fix-up applied per link at render time (search.py 175-177):
`if not url.startswith('http'): url = 'https://' + url`. -/
def renderLinkUrl (url : String) : String :=
  if matchesAt "http".data url.data then url else "https://" ++ url

/-- The rendered link list is capped at five entries (search.py 171:
`video_links[:5]`). -/
def renderLinkList (video_links : List RutubeLink) : List RutubeLink :=
  video_links.take 5

theorem processRutubeResults_length (rs : List RutubeRawResult) :
    ∀ (count : ℕ) (t : String),
      (processRutubeResults rs count t).1.length ≤ 3 - count := by
  induction rs with
  | nil => intro count t; simp [processRutubeResults]
  | cons r rs ih =>
    intro count t
    unfold processRutubeResults
    by_cases h3 : count ≥ 3
    · simp [h3]
    · by_cases hu : r.video_url ≠ ""
      · have := ih (count + 1) r.title
        rw [if_neg h3, if_pos hu]
        simp only [List.length_cons]
        omega
      · have := ih count r.title
        rw [if_neg h3, if_neg hu]
        exact this

theorem processRutubeResults_mem (rs : List RutubeRawResult) :
    ∀ (count : ℕ) (t : String) (l : RutubeLink),
      l ∈ (processRutubeResults rs count t).1 →
      l.url ≠ "" ∧ l.from_cache = false ∧
      ∃ r ∈ rs, l.name = r.title ∧ l.url = r.video_url := by
  induction rs with
  | nil => intro count t l hl; simp [processRutubeResults] at hl
  | cons r rs ih =>
    intro count t l hl
    unfold processRutubeResults at hl
    by_cases h3 : count ≥ 3
    · simp [h3] at hl
    · rw [if_neg h3] at hl
      by_cases hu : r.video_url ≠ ""
      · rw [if_pos hu] at hl
        simp only [] at hl
        rcases List.mem_cons.mp hl with h | h
        · subst h
          exact ⟨hu, rfl, r, List.mem_cons_self r rs, rfl, rfl⟩
        · obtain ⟨hne, hfc, r', hr', hn, hu'⟩ := ih (count + 1) r.title l h
          exact ⟨hne, hfc, r', List.mem_cons_of_mem r hr', hn, hu'⟩
      · rw [if_neg hu] at hl
        obtain ⟨hne, hfc, r', hr', hn, hu'⟩ := ih count r.title l hl
        exact ⟨hne, hfc, r', List.mem_cons_of_mem r hr', hn, hu'⟩

/-- After the render-time fix-up every URL starts with `"http"`. -/
theorem renderLinkUrl_starts_http (url : String) :
    matchesAt "http".data (renderLinkUrl url).data = true := by
  unfold renderLinkUrl
  by_cases h : matchesAt "http".data url.data = true
  · rw [if_pos h]
    exact h
  · rw [if_neg h]
    show matchesAt "http".data ("https://".data ++ url.data) = true
    rfl

/-- The 40-character title used by the C9 counterexample. -/
def longRawResult : RutubeRawResult :=
  { title := "An Extremely Long Rutube Video Title 123"
    video_url := "rutube.ru/video/abc/" }

/-- C9 counterexample: on a cache miss the adapter keeps the display label
verbatim — a 40-character title is stored untruncated and without any
ellipsis marker — and the URL is stored exactly as the provider sent it,
here without any scheme. (The `title[:25]` + `"..."` truncation appears
only in the log line, api.py 56, and the scheme fix-up only at render
time, search.py 175-177.) -/
theorem search_rutube_api_label_not_truncated :
    (search_rutube_api id 0 (.ok [longRawResult]) "q" (fun _ => none)).1
      = [{ name := "An Extremely Long Rutube Video Title 123"
           url := "rutube.ru/video/abc/"
           from_cache := false }] ∧
    ("An Extremely Long Rutube Video Title 123" : String).length = 40 ∧
    occursIn "...".data
      ("An Extremely Long Rutube Video Title 123" : String).data = false ∧
    matchesAt "http".data ("rutube.ru/video/abc/" : String).data = false := by
  refine ⟨?_, ?_, ?_, ?_⟩ <;> decide

/-- C9 amended: on a cache miss with an HTTP 200 response, the result list
has at most 3 candidates, each with a non-empty URL, `from_cache = False`,
and a display label kept verbatim from the provider title (no truncation —
the bounded ellipsis truncation exists only in the log message); an
explicit scheme is ensured not by the adapter but by the message renderer,
which prefixes `https://` to any URL not starting with `http` and caps the
displayed list at 5 (which never cuts the adapter's ≤ 3 list). -/
theorem search_rutube_api_fresh_links_shape (md5hex : String → String)
    (now : ℚ) (results : List RutubeRawResult) (title : String)
    (cache : RutubeCache)
    (hmiss : (get_rutube_from_cache md5hex now title cache).1 = none) :
    (search_rutube_api md5hex now (.ok results) title cache).1.length ≤ 3 ∧
    (∀ l ∈ (search_rutube_api md5hex now (.ok results) title cache).1,
      l.url ≠ "" ∧ l.from_cache = false ∧
      ∃ r ∈ results, l.name = r.title ∧ l.url = r.video_url) ∧
    (∀ l ∈ (search_rutube_api md5hex now (.ok results) title cache).1,
      matchesAt "http".data (renderLinkUrl l.url).data = true) ∧
    renderLinkList (search_rutube_api md5hex now (.ok results) title cache).1
      = (search_rutube_api md5hex now (.ok results) title cache).1 := by
  rw [search_rutube_api_miss_ok md5hex now results title cache hmiss]
  have hlen : (processRutubeResults results 0 title).1.length ≤ 3 := by
    have := processRutubeResults_length results 0 title
    omega
  refine ⟨hlen, ?_, ?_, ?_⟩
  · intro l hl
    exact processRutubeResults_mem results 0 title l hl
  · intro l _
    exact renderLinkUrl_starts_http l.url
  · show renderLinkList (processRutubeResults results 0 title).1
        = (processRutubeResults results 0 title).1
    unfold renderLinkList
    exact List.take_of_length_le (le_trans hlen (by omega))

/-- C9 amended witness: one scheme-less long-titled provider result on an
empty table. -/
theorem search_rutube_api_fresh_links_shape_witness :
    ((get_rutube_from_cache id 0 "q" (fun _ => none)).1 = none) ∧
    ((search_rutube_api id 0 (.ok [longRawResult]) "q" (fun _ => none)).1.length ≤ 3 ∧
      (∀ l ∈ (search_rutube_api id 0 (.ok [longRawResult]) "q" (fun _ => none)).1,
        l.url ≠ "" ∧ l.from_cache = false ∧
        ∃ r ∈ [longRawResult], l.name = r.title ∧ l.url = r.video_url) ∧
      (∀ l ∈ (search_rutube_api id 0 (.ok [longRawResult]) "q" (fun _ => none)).1,
        matchesAt "http".data (renderLinkUrl l.url).data = true) ∧
      renderLinkList (search_rutube_api id 0 (.ok [longRawResult]) "q" (fun _ => none)).1
        = (search_rutube_api id 0 (.ok [longRawResult]) "q" (fun _ => none)).1) :=
  ⟨by decide,
    search_rutube_api_fresh_links_shape id 0 [longRawResult] "q" (fun _ => none)
      (by decide)⟩

/-! The Query Resolver gate: handle_message (search.py 89-109) and the
toggle configuration (commands.py 24-36). -/

/-- `separator` (helpers.py 12-30). -/
def separator (text : String) : String :=
  if text = "" then "────────────" else "────── " ++ text ++ " ──────"

/-- The "no sources enabled" message built in the early-return branch
(search.py 95-101; the f-string pieces concatenate directly). -/
def SOURCES_DISABLED_TEXT : String :=
  "🔎 <b>Все источники поиска отключены!</b>\n" ++ separator "" ++
  "Чтобы начать поиск, включите хотя бы один источник:\n" ++
  "/turn_links - Вкл/выкл поиск ссылок (Rutube)\n" ++
  "/turn_kp - Вкл/выкл Кинопоиск"

/-- The "nothing found" message (search.py 163), as a function of the
HTML-escaped query. -/
def NOT_FOUND_TEXT (escaped_query : String) : String :=
  "😔 К сожалению, по запросу <b>" ++ escaped_query ++
  "</b> ничего не найдено ни на Кинопоиске, ни на Rutube."

/-- The two adapter tasks `handle_message` can launch (search.py 105-109). -/
inductive SearchTask
  | kinopoisk
  | rutube
deriving DecidableEq, Repr

/-- The source-toggle gate and task creation of `handle_message`
(search.py 93-109): with both toggles off the handler answers
`SOURCES_DISABLED_TEXT` and returns before any task is created (`none`);
otherwise it launches one task per enabled source, Kinopoisk first. -/
def handle_message_dispatch (links_on kp_on : Bool) : Option (List SearchTask) :=
  if !links_on && !kp_on then none
  else some ((if kp_on then [SearchTask.kinopoisk] else []) ++
             (if links_on then [SearchTask.rutube] else []))

theorem sources_disabled_head :
    SOURCES_DISABLED_TEXT.data.head? = some '🔎' := by decide

theorem not_found_head (escaped_query : String) :
    (NOT_FOUND_TEXT escaped_query).data.head? = some '😔' := rfl

/-- C6: with both source toggles disabled the handler terminates in the
distinct "no sources enabled" early return — no adapter task is launched,
hence no network call — and that message differs from the "no results
found" message for every query. -/
theorem sources_disabled_short_circuit :
    handle_message_dispatch false false = none ∧
    (∀ links_on kp_on tasks,
      handle_message_dispatch links_on kp_on = some tasks →
      links_on = true ∨ kp_on = true) ∧
    (∀ escaped_query, SOURCES_DISABLED_TEXT ≠ NOT_FOUND_TEXT escaped_query) := by
  refine ⟨rfl, ?_, ?_⟩
  · intro links_on kp_on tasks h
    cases links_on with
    | true => exact Or.inl rfl
    | false =>
      cases kp_on with
      | true => exact Or.inr rfl
      | false => simp [handle_message_dispatch] at h
  · intro escaped_query h
    have hh : SOURCES_DISABLED_TEXT.data.head?
        = (NOT_FOUND_TEXT escaped_query).data.head? := by rw [h]
    rw [sources_disabled_head, not_found_head] at hh
    exact absurd (Option.some.inj hh) (by decide)

/-- C6 witness: the short-circuit applied at a concrete query. -/
theorem sources_disabled_short_circuit_witness :
    handle_message_dispatch false false = none ∧
    SOURCES_DISABLED_TEXT ≠ NOT_FOUND_TEXT "venom" :=
  ⟨sources_disabled_short_circuit.1,
    sources_disabled_short_circuit.2.2 "venom"⟩

/-! The Metadata Adapter's best-match selection: `find_exact_match`
(api.py 233-297) and its use in `get_kinopoisk_data` (api.py 173-181). -/

/-- Python `str.strip()` on the character list: drop whitespace from both
ends. -/
def trimWs (l : List Char) : List Char :=
  ((l.dropWhile isWs).reverse.dropWhile isWs).reverse

/-- Python `s.lower()`. -/
def pyLower (s : String) : String := ⟨pyLowerChars s.data⟩

/-- Python `s.strip()`. -/
def pyStrip (s : String) : String := ⟨trimWs s.data⟩

/-- Python `s.split()` (no separator) at the string level. -/
def pySplitWords (s : String) : List String :=
  (pySplitWs s.data).map (fun w => ⟨w⟩)

/-- One Kinopoisk search-result dictionary as read by `find_exact_match`:
`result.get('title', '')` and the optional `'nameEn'` key (api.py 263-268). -/
structure SearchResult where
  title : String
  nameEn : Option String
deriving DecidableEq, Repr

/-- `title_ru = result.get('title', '').lower().strip()` (api.py 263). -/
def titleRu (r : SearchResult) : String := pyStrip (pyLower r.title)

/-- `title_en`: empty unless the `'nameEn'` key is present, in which case
`result.get('nameEn', '').lower().strip()` (api.py 264-268). -/
def titleEn (r : SearchResult) : String :=
  match r.nameEn with
  | some s => pyStrip (pyLower s)
  | none => ""

/-- The hardcoded synonym table `special_titles` (api.py 239-255), as the
lookup `special_titles.get(query_clean, ...)`. -/
def special_titles (q : String) : Option (List String) :=
  if q = "venom" then some ["веном", "venom"]
  else if q = "веном" then some ["веном", "venom"]
  else if q = "avatar" then some ["аватар", "avatar"]
  else if q = "аватар" then some ["аватар", "avatar"]
  else if q = "spider-man" then some ["человек-паук", "spider-man", "spiderman"]
  else if q = "человек-паук" then some ["человек-паук", "spider-man", "spiderman"]
  else if q = "spiderman" then some ["человек-паук", "spider-man", "spiderman"]
  else if q = "matrix" then some ["матрица", "matrix"]
  else if q = "матрица" then some ["матрица", "matrix"]
  else if q = "star wars" then some ["звездные войны", "star wars"]
  else if q = "звездные войны" then some ["звездные войны", "star wars"]
  else if q = "avengers" then some ["мстители", "avengers"]
  else if q = "мстители" then some ["мстители", "avengers"]
  else if q = "terminator" then some ["терминатор", "terminator"]
  else if q = "терминатор" then some ["терминатор", "terminator"]
  else none

/-- `alt_titles = special_titles.get(query_clean, [query_clean])`
(api.py 258). -/
def altTitles (query_clean : String) : List String :=
  (special_titles query_clean).getD [query_clean]

/-- First priority (api.py 261-274): some alternate title equals the
cleaned Russian or English title exactly. -/
def isExactTitleHit (alts : List String) (r : SearchResult) : Bool :=
  alts.any (fun alt => alt == titleRu r || alt == titleEn r)

/-- Second priority (api.py 276-285): some alternate title equals a whole
word of the cleaned Russian title. -/
def isWordHit (alts : List String) (r : SearchResult) : Bool :=
  alts.any (fun alt => (pySplitWords (titleRu r)).any (fun word => alt == word))

/-- Third priority (api.py 287-294): some alternate title occurs as a
substring of the cleaned Russian title. -/
def isSubstringHit (alts : List String) (r : SearchResult) : Bool :=
  alts.any (fun alt => occursIn alt.data (titleRu r).data)

/-- `find_exact_match` (api.py 233-297): three first-match scans in
priority order, `None` if all fail. -/
def find_exact_match (search_results : List SearchResult) (query : String) :
    Option SearchResult :=
  match search_results.find?
      (isExactTitleHit (altTitles (pyStrip (pyLower query)))) with
  | some r => some r
  | none =>
    match search_results.find?
        (isWordHit (altTitles (pyStrip (pyLower query)))) with
    | some r => some r
    | none =>
      search_results.find?
        (isSubstringHit (altTitles (pyStrip (pyLower query))))

/-- The selection step of `get_kinopoisk_data` (api.py 173-181): the exact
match when one exists, else the first search result. -/
def selectBestMatch (search_results : List SearchResult) (query : String) :
    Option SearchResult :=
  match find_exact_match search_results query with
  | some m => some m
  | none => search_results.head?

/-- The search results of the spec's concrete example. -/
def venomResults : List SearchResult :=
  [{ title := "Venom 2", nameEn := none },
   { title := "Venom", nameEn := none },
   { title := "Venom: Let There Be Carnage", nameEn := none }]

/-- C5: the best-match selection follows the priority order exact title
match (including the synonym-table alternates), then whole-word match,
then substring containment, else the first result; and on the results
`["Venom 2", "Venom", "Venom: Let There Be Carnage"]` for query `"venom"`
it selects `"Venom"`. -/
theorem best_match_priority :
    (∀ (results : List SearchResult) (query : String),
      ((∃ r ∈ results,
          isExactTitleHit (altTitles (pyStrip (pyLower query))) r = true) →
        ∃ m, selectBestMatch results query = some m ∧
          isExactTitleHit (altTitles (pyStrip (pyLower query))) m = true) ∧
      ((∀ r ∈ results,
          isExactTitleHit (altTitles (pyStrip (pyLower query))) r = false) →
        (∃ r ∈ results,
          isWordHit (altTitles (pyStrip (pyLower query))) r = true) →
        ∃ m, selectBestMatch results query = some m ∧
          isWordHit (altTitles (pyStrip (pyLower query))) m = true) ∧
      ((∀ r ∈ results,
          isExactTitleHit (altTitles (pyStrip (pyLower query))) r = false) →
        (∀ r ∈ results,
          isWordHit (altTitles (pyStrip (pyLower query))) r = false) →
        (∃ r ∈ results,
          isSubstringHit (altTitles (pyStrip (pyLower query))) r = true) →
        ∃ m, selectBestMatch results query = some m ∧
          isSubstringHit (altTitles (pyStrip (pyLower query))) m = true) ∧
      ((∀ r ∈ results,
          isExactTitleHit (altTitles (pyStrip (pyLower query))) r = false) →
        (∀ r ∈ results,
          isWordHit (altTitles (pyStrip (pyLower query))) r = false) →
        (∀ r ∈ results,
          isSubstringHit (altTitles (pyStrip (pyLower query))) r = false) →
        selectBestMatch results query = results.head?)) ∧
    selectBestMatch venomResults "venom"
      = some { title := "Venom", nameEn := none } := by
  refine ⟨?_, by decide⟩
  intro results query
  refine ⟨?_, ?_, ?_, ?_⟩
  · rintro ⟨r, hr, hhit⟩
    cases hfind : results.find?
        (isExactTitleHit (altTitles (pyStrip (pyLower query)))) with
    | none =>
      exact absurd hhit (by simpa using List.find?_eq_none.mp hfind r hr)
    | some m =>
      refine ⟨m, ?_, List.find?_some hfind⟩
      unfold selectBestMatch find_exact_match
      rw [hfind]
  · intro hne
    rintro ⟨r, hr, hhit⟩
    have hnone : results.find?
        (isExactTitleHit (altTitles (pyStrip (pyLower query)))) = none :=
      List.find?_eq_none.mpr (fun x hx => by simp [hne x hx])
    cases hfind : results.find?
        (isWordHit (altTitles (pyStrip (pyLower query)))) with
    | none =>
      exact absurd hhit (by simpa using List.find?_eq_none.mp hfind r hr)
    | some m =>
      refine ⟨m, ?_, List.find?_some hfind⟩
      unfold selectBestMatch find_exact_match
      rw [hnone, hfind]
  · intro hne hnw
    rintro ⟨r, hr, hhit⟩
    have hnone : results.find?
        (isExactTitleHit (altTitles (pyStrip (pyLower query)))) = none :=
      List.find?_eq_none.mpr (fun x hx => by simp [hne x hx])
    have hnonew : results.find?
        (isWordHit (altTitles (pyStrip (pyLower query)))) = none :=
      List.find?_eq_none.mpr (fun x hx => by simp [hnw x hx])
    cases hfind : results.find?
        (isSubstringHit (altTitles (pyStrip (pyLower query)))) with
    | none =>
      exact absurd hhit (by simpa using List.find?_eq_none.mp hfind r hr)
    | some m =>
      refine ⟨m, ?_, List.find?_some hfind⟩
      unfold selectBestMatch find_exact_match
      rw [hnone, hnonew, hfind]
  · intro hne hnw hns
    have hnone : results.find?
        (isExactTitleHit (altTitles (pyStrip (pyLower query)))) = none :=
      List.find?_eq_none.mpr (fun x hx => by simp [hne x hx])
    have hnonew : results.find?
        (isWordHit (altTitles (pyStrip (pyLower query)))) = none :=
      List.find?_eq_none.mpr (fun x hx => by simp [hnw x hx])
    have hnones : results.find?
        (isSubstringHit (altTitles (pyStrip (pyLower query)))) = none :=
      List.find?_eq_none.mpr (fun x hx => by simp [hns x hx])
    unfold selectBestMatch find_exact_match
    rw [hnone, hnonew, hnones]

/-- C5 witness: the exact-hit clause applied to the spec's Venom example. -/
theorem best_match_priority_witness :
    (∃ r ∈ venomResults,
      isExactTitleHit (altTitles (pyStrip (pyLower "venom"))) r = true) ∧
    (∃ m, selectBestMatch venomResults "venom" = some m ∧
      isExactTitleHit (altTitles (pyStrip (pyLower "venom"))) m = true) :=
  ⟨by decide, (best_match_priority.1 venomResults "venom").1 (by decide)⟩

/-! The Poster Blob Store: `get_cached_poster_path` (cache.py 161-193).
Filenames are modelled as their character lists; the poster directory is
the `os.listdir` listing, a list of filenames. -/

/-- `os.path.join(POSTERS_DIR, filename)` with `POSTERS_DIR =
"cache/posters"` (cache.py 8-9, 171). -/
def postersDirChars : List Char := "cache/posters/".data

/-- The `".jpg"` suffix of poster filenames (cache.py 203). -/
def jpgExt : List Char := ['.', 'j', 'p', 'g']

/-- Python `str.split(sep)` for a one-character separator (keeps empty
chunks, exactly like Python). -/
def splitOnChar (sep : Char) : List Char → List (List Char)
  | [] => [[]]
  | c :: rest =>
    if c = sep then [] :: splitOnChar sep rest
    else
      match splitOnChar sep rest with
      | [] => [[c]]
      | w :: ws => (c :: w) :: ws

/-- Numeric value of a digit string. -/
def digitsToNat (l : List Char) : ℕ :=
  l.foldl (fun acc c => 10 * acc + (c.toNat - '0'.toNat)) 0

/-- Model of Python `float(s)` restricted to the timestamp strings that
occur in poster filenames: a non-empty all-digit string parses to its
value, anything else raises (`none`, landing in the `except` branch of
cache.py 187-188). `save_poster_to_cache` (cache.py 203) places the
integer part of `time.time()` in this position, so the full float grammar
(signs, fractions, exponents) never arises for files the store itself
wrote. -/
def pyFloatDigits (l : List Char) : Option ℚ :=
  if !l.isEmpty && l.all Char.isDigit then some ((digitsToNat l : ℕ) : ℚ)
  else none

/-- `timestamp_str = filename.split('_')[1].split('.')[0]` followed by
`float(timestamp_str)` (cache.py 175-176); an out-of-range index or a
parse failure raises, giving `none`. -/
def parsePosterTimestamp (filename : List Char) : Option ℚ :=
  match (splitOnChar '_' filename)[1]? with
  | none => none
  | some part =>
    match (splitOnChar '.' part)[0]? with
    | none => none
    | some tsStr => pyFloatDigits tsStr

/-- The directory scan of `get_cached_poster_path` (cache.py 168-190):
the first filename starting with `f"{movie_id}_"` decides the call —
within the window its full path is returned, expired it is removed
(`os.remove`) and the scan returns `none` immediately; a filename whose
timestamp fails to parse is logged and skipped. Returns the result and
the directory listing after the call. -/
def scanPosters (now : ℚ) (idStr : List Char) :
    List (List Char) → Option (List Char) × List (List Char)
  | [] => (none, [])
  | filename :: rest =>
    if matchesAt (idStr ++ ['_']) filename then
      match parsePosterTimestamp filename with
      | some ts =>
        if now - ts > cacheExpirySeconds then (none, rest)
        else (some (postersDirChars ++ filename), filename :: rest)
      | none =>
        ((scanPosters now idStr rest).1,
          filename :: (scanPosters now idStr rest).2)
    else
      ((scanPosters now idStr rest).1,
        filename :: (scanPosters now idStr rest).2)

/-- `get_cached_poster_path` (cache.py 161-193). `movie_id` is the
character list of the identifier's formatted value; the Python falsy guard
`if not movie_id` (line 164) is the empty case. -/
def get_cached_poster_path (now : ℚ) (movie_id : List Char)
    (dir : List (List Char)) : Option (List Char) × List (List Char) :=
  if movie_id = [] then (none, dir) else scanPosters now movie_id dir

theorem splitOnChar_cons (sep c : Char) (rest : List Char) :
    splitOnChar sep (c :: rest)
      = if c = sep then [] :: splitOnChar sep rest
        else
          match splitOnChar sep rest with
          | [] => [[c]]
          | w :: ws => (c :: w) :: ws := rfl

theorem scanPosters_cons (now : ℚ) (idStr filename : List Char)
    (rest : List (List Char)) :
    scanPosters now idStr (filename :: rest)
      = if matchesAt (idStr ++ ['_']) filename then
          match parsePosterTimestamp filename with
          | some ts =>
            if now - ts > cacheExpirySeconds then (none, rest)
            else (some (postersDirChars ++ filename), filename :: rest)
          | none =>
            ((scanPosters now idStr rest).1,
              filename :: (scanPosters now idStr rest).2)
        else
          ((scanPosters now idStr rest).1,
            filename :: (scanPosters now idStr rest).2) := rfl

theorem matchesAt_append_self (xs ys : List Char) :
    matchesAt xs (xs ++ ys) = true := by
  induction xs with
  | nil => rfl
  | cons a as ih => simp [matchesAt, ih]

theorem splitOnChar_not_mem (sep : Char) (l : List Char) (h : sep ∉ l) :
    splitOnChar sep l = [l] := by
  induction l with
  | nil => rfl
  | cons c rest ih =>
    have hc : ¬ c = sep := fun hc => h (hc ▸ List.mem_cons_self c rest)
    have hr : sep ∉ rest := fun hr => h (List.mem_cons_of_mem c hr)
    unfold splitOnChar
    rw [if_neg hc, ih hr]

theorem splitOnChar_append (sep : Char) (xs ys : List Char) (h : sep ∉ xs) :
    splitOnChar sep (xs ++ sep :: ys) = xs :: splitOnChar sep ys := by
  induction xs with
  | nil => simp [splitOnChar]
  | cons c xs' ih =>
    have hc : ¬ c = sep := fun hc => h (hc ▸ List.mem_cons_self c xs')
    have hx : sep ∉ xs' := fun hx => h (List.mem_cons_of_mem c hx)
    show splitOnChar sep (c :: (xs' ++ sep :: ys)) = _
    rw [splitOnChar_cons, if_neg hc, ih hx]

theorem parsePosterTimestamp_canonical (idC tsC : List Char)
    (hid : '_' ∉ idC) (hts1 : '_' ∉ tsC) (hts2 : '.' ∉ tsC) :
    parsePosterTimestamp (idC ++ '_' :: (tsC ++ jpgExt))
      = pyFloatDigits tsC := by
  have h1 : splitOnChar '_' (idC ++ '_' :: (tsC ++ jpgExt))
      = idC :: splitOnChar '_' (tsC ++ jpgExt) :=
    splitOnChar_append '_' idC (tsC ++ jpgExt) hid
  have hnm : '_' ∉ tsC ++ jpgExt := by
    intro hmem
    rcases List.mem_append.mp hmem with hmem | hmem
    · exact hts1 hmem
    · simp [jpgExt] at hmem
  have h2 : splitOnChar '_' (tsC ++ jpgExt) = [tsC ++ jpgExt] :=
    splitOnChar_not_mem '_' (tsC ++ jpgExt) hnm
  have h3 : splitOnChar '.' (tsC ++ jpgExt)
      = tsC :: splitOnChar '.' ['j', 'p', 'g'] := by
    show splitOnChar '.' (tsC ++ '.' :: ['j', 'p', 'g']) = _
    exact splitOnChar_append '.' tsC ['j', 'p', 'g'] hts2
  unfold parsePosterTimestamp
  rw [h1, h2]
  simp only [List.getElem?_cons_succ, List.getElem?_cons_zero]
  rw [h3]
  simp only [List.getElem?_cons_zero]

theorem scanPosters_skip (now : ℚ) (idC : List Char)
    (pre rest : List (List Char))
    (hpre : ∀ f ∈ pre, matchesAt (idC ++ ['_']) f = false) :
    scanPosters now idC (pre ++ rest)
      = ((scanPosters now idC rest).1, pre ++ (scanPosters now idC rest).2) := by
  induction pre with
  | nil => simp
  | cons f pre' ih =>
    have hf : matchesAt (idC ++ ['_']) f = false :=
      hpre f (List.mem_cons_self f pre')
    have hrest : ∀ g ∈ pre', matchesAt (idC ++ ['_']) g = false :=
      fun g hg => hpre g (List.mem_cons_of_mem f hg)
    show scanPosters now idC (f :: (pre' ++ rest)) = _
    rw [scanPosters_cons, if_neg (by simp [hf]), ih hrest]
    rfl

theorem scanPosters_no_match (now : ℚ) (idC : List Char)
    (d : List (List Char))
    (hd : ∀ f ∈ d, matchesAt (idC ++ ['_']) f = false) :
    scanPosters now idC d = (none, d) := by
  induction d with
  | nil => rfl
  | cons f d' ih =>
    have hf : matchesAt (idC ++ ['_']) f = false :=
      hd f (List.mem_cons_self f d')
    have hrest : ∀ g ∈ d', matchesAt (idC ++ ['_']) g = false :=
      fun g hg => hd g (List.mem_cons_of_mem f hg)
    rw [scanPosters_cons, if_neg (by simp [hf]), ih hrest]

/-- C7: looking a poster up by `movie_id` over a directory holding one
file `f"{movie_id}_{t}.jpg"` (plus arbitrary non-matching files around
it): within the 21-day window the file's path is returned and the
directory is untouched; expired, the file is deleted (eager expiry) and
`none` is returned; and over a directory with no matching file, `none`
is returned with the directory untouched. -/
theorem poster_lookup_spec (now t : ℚ) (idC tsC : List Char)
    (pre post : List (List Char))
    (hidne : idC ≠ [])
    (hidDigits : ∀ c ∈ idC, c.isDigit = true)
    (hts : pyFloatDigits tsC = some t)
    (hpre : ∀ f ∈ pre, matchesAt (idC ++ ['_']) f = false) :
    (¬ now - t > cacheExpirySeconds →
      get_cached_poster_path now idC
          (pre ++ (idC ++ '_' :: (tsC ++ jpgExt)) :: post)
        = (some (postersDirChars ++ (idC ++ '_' :: (tsC ++ jpgExt))),
            pre ++ (idC ++ '_' :: (tsC ++ jpgExt)) :: post)) ∧
    (now - t > cacheExpirySeconds →
      get_cached_poster_path now idC
          (pre ++ (idC ++ '_' :: (tsC ++ jpgExt)) :: post)
        = (none, pre ++ post)) ∧
    (∀ d, (∀ f ∈ d, matchesAt (idC ++ ['_']) f = false) →
      get_cached_poster_path now idC d = (none, d)) := by
  have htsDigits : tsC.all Char.isDigit = true := by
    unfold pyFloatDigits at hts
    by_cases hc : (!tsC.isEmpty && tsC.all Char.isDigit) = true
    · exact (Bool.and_eq_true _ _).mp hc |>.2
    · rw [if_neg hc] at hts
      exact absurd hts (by simp)
  have hid : '_' ∉ idC := fun hmem =>
    absurd (hidDigits '_' hmem) (by decide)
  have hts1 : '_' ∉ tsC := fun hmem =>
    absurd (List.all_eq_true.mp htsDigits '_' hmem) (by decide)
  have hts2 : '.' ∉ tsC := fun hmem =>
    absurd (List.all_eq_true.mp htsDigits '.' hmem) (by decide)
  have hparse : parsePosterTimestamp (idC ++ '_' :: (tsC ++ jpgExt)) = some t := by
    rw [parsePosterTimestamp_canonical idC tsC hid hts1 hts2]
    exact hts
  have hmatch : matchesAt (idC ++ ['_']) (idC ++ '_' :: (tsC ++ jpgExt)) = true := by
    have : idC ++ '_' :: (tsC ++ jpgExt) = (idC ++ ['_']) ++ (tsC ++ jpgExt) := by
      simp
    rw [this]
    exact matchesAt_append_self _ _
  have hscan := scanPosters_skip now idC pre
    ((idC ++ '_' :: (tsC ++ jpgExt)) :: post) hpre
  refine ⟨?_, ?_, ?_⟩
  · intro hfresh
    unfold get_cached_poster_path
    rw [if_neg hidne, hscan, scanPosters_cons, if_pos hmatch, hparse]
    dsimp only
    rw [if_neg hfresh]
  · intro hexp
    unfold get_cached_poster_path
    rw [if_neg hidne, hscan, scanPosters_cons, if_pos hmatch, hparse]
    dsimp only
    rw [if_pos hexp]
  · intro d hd
    unfold get_cached_poster_path
    rw [if_neg hidne]
    exact scanPosters_no_match now idC d hd

/-- C7 witness: movie id `301`, timestamp `0`, an unrelated file in
front; evaluated in both the fresh and the expired case. -/
theorem poster_lookup_spec_witness :
    ((['3', '0', '1'] : List Char) ≠ [] ∧
      (∀ c ∈ (['3', '0', '1'] : List Char), c.isDigit = true) ∧
      pyFloatDigits ['0'] = some 0 ∧
      (∀ f ∈ [("other_1.jpg" : String).data],
        matchesAt (['3', '0', '1'] ++ ['_']) f = false) ∧
      ¬ (150 : ℚ) - 0 > cacheExpirySeconds ∧
      (2000000 : ℚ) - 0 > cacheExpirySeconds) ∧
    get_cached_poster_path 150 ['3', '0', '1']
        ([("other_1.jpg" : String).data] ++
          (['3', '0', '1'] ++ '_' :: (['0'] ++ jpgExt)) :: [])
      = (some (postersDirChars ++ (['3', '0', '1'] ++ '_' :: (['0'] ++ jpgExt))),
          [("other_1.jpg" : String).data] ++
            (['3', '0', '1'] ++ '_' :: (['0'] ++ jpgExt)) :: []) ∧
    get_cached_poster_path 2000000 ['3', '0', '1']
        ([("other_1.jpg" : String).data] ++
          (['3', '0', '1'] ++ '_' :: (['0'] ++ jpgExt)) :: [])
      = (none, [("other_1.jpg" : String).data] ++ []) :=
  ⟨⟨by decide, by decide, by decide, by decide,
    by simp only [cacheExpirySeconds_eq, sub_zero, gt_iff_lt, not_lt]; decide,
    by simp only [cacheExpirySeconds_eq, sub_zero, gt_iff_lt]; decide⟩,
    (poster_lookup_spec 150 0 ['3', '0', '1'] ['0']
        [("other_1.jpg" : String).data] [] (by decide) (by decide) (by decide)
        (by decide)).1
      (by simp only [cacheExpirySeconds_eq, sub_zero, gt_iff_lt, not_lt]; decide),
    (poster_lookup_spec 2000000 0 ['3', '0', '1'] ['0']
        [("other_1.jpg" : String).data] [] (by decide) (by decide) (by decide)
        (by decide)).2.1
      (by simp only [cacheExpirySeconds_eq, sub_zero, gt_iff_lt]; decide)⟩

/-! Heap-level model of the links-cache read (cache.py 121-159) and of the
caller's mutation of the returned list (api.py 19-26). Python dictionaries
are mutable objects: the heap maps references (`ℕ`) to `RutubeLink`
values, `next` is the allocation counter, and a cached entry holds the
references of its link dictionaries. -/

structure LinkHeap where
  mem : ℕ → RutubeLink
  next : ℕ

/-- One links-cache entry at heap level: the stored list holds references
to link dictionaries. -/
structure RutubeHeapEntry where
  timestamp : ℚ
  links : List ℕ
  original_query : String

/-- The links table at heap level. -/
def RutubeHeapCache : Type := String → Option RutubeHeapEntry

/-- The copy loop of cache.py 151-154: `links.append(dict(link))` allocates
a fresh dictionary per cached link, copying its value; returns the fresh
references and the grown heap. -/
def copyLinks (h : LinkHeap) : List ℕ → List ℕ × LinkHeap
  | [] => ([], h)
  | r :: rs =>
    let h' : LinkHeap :=
      { mem := fun x => if x = h.next then h.mem r else h.mem x
        next := h.next + 1 }
    ((h.next :: (copyLinks h' rs).1), (copyLinks h' rs).2)

/-- `get_rutube_from_cache` (cache.py 121-159) at heap level: on a hit the
returned list holds FRESH references (deep copies); the cached entry keeps
its original references. -/
def get_rutube_from_cache_heap (md5hex : String → String) (now : ℚ)
    (query : String) (cache : RutubeHeapCache) (h : LinkHeap) :
    Option (List ℕ) × LinkHeap :=
  match cache (get_cache_key md5hex query) with
  | none => (none, h)
  | some e =>
    if now - e.timestamp > cacheExpirySeconds then (none, h)
    else (some (copyLinks h e.links).1, (copyLinks h e.links).2)

/-- The caller's mutation loop in `search_rutube_api` (api.py 24-25):
`for link in cached_links: link['from_cache'] = True`, an in-place update
of every dictionary the returned references point to. -/
def setFromCacheTrue (h : LinkHeap) (refs : List ℕ) : LinkHeap :=
  refs.foldl
    (fun hh r =>
      { mem := fun x => if x = r then { hh.mem r with from_cache := true }
                        else hh.mem x
        next := hh.next })
    h

theorem copyLinks_spec (refs : List ℕ) :
    ∀ h : LinkHeap, (∀ r ∈ refs, r < h.next) →
      (copyLinks h refs).2.next = h.next + refs.length ∧
      (∀ x, x < h.next → (copyLinks h refs).2.mem x = h.mem x) ∧
      (∀ o ∈ (copyLinks h refs).1, h.next ≤ o) ∧
      (copyLinks h refs).1.map (copyLinks h refs).2.mem = refs.map h.mem := by
  induction refs with
  | nil => intro h _; simp [copyLinks]
  | cons r rs ih =>
    intro h hlt
    have hr : r < h.next := hlt r (List.mem_cons_self r rs)
    set h' : LinkHeap :=
      { mem := fun x => if x = h.next then h.mem r else h.mem x
        next := h.next + 1 } with hh'
    have hlt' : ∀ r' ∈ rs, r' < h'.next := fun r' hr' =>
      Nat.lt_succ_of_lt (hlt r' (List.mem_cons_of_mem r hr'))
    obtain ⟨ihnext, ihpres, ihout, ihmap⟩ := ih h' hlt'
    have hstep : copyLinks h (r :: rs)
        = ((h.next :: (copyLinks h' rs).1), (copyLinks h' rs).2) := rfl
    rw [hstep]
    refine ⟨?_, ?_, ?_, ?_⟩
    · rw [ihnext]
      have hnext' : h'.next = h.next + 1 := rfl
      rw [hnext', List.length_cons]
      omega
    · intro x hx
      have := ihpres x (Nat.lt_succ_of_lt hx)
      rw [this, hh']
      simp only []
      rw [if_neg (Nat.ne_of_lt hx)]
    · intro o ho
      rcases List.mem_cons.mp ho with rfl | ho
      · exact Nat.le_refl _
      · exact Nat.le_of_succ_le (ihout o ho)
    · simp only [List.map_cons]
      have h1 : (copyLinks h' rs).2.mem h.next = h'.mem h.next :=
        ihpres h.next (Nat.lt_succ_self _)
      have h2 : h'.mem h.next = h.mem r := by
        simp [hh']
      have h3 : rs.map h'.mem = rs.map h.mem := by
        apply List.map_congr_left
        intro a ha
        rw [hh']
        simp only []
        rw [if_neg (Nat.ne_of_lt (hlt a (List.mem_cons_of_mem r ha)))]
      rw [h1, h2, ihmap, h3]

theorem setFromCacheTrue_next (refs : List ℕ) :
    ∀ h : LinkHeap, (setFromCacheTrue h refs).next = h.next := by
  induction refs with
  | nil => intro h; rfl
  | cons r rs ih => intro h; exact ih _

theorem setFromCacheTrue_mem_of_not_mem (refs : List ℕ) :
    ∀ (h : LinkHeap) (x : ℕ), x ∉ refs →
      (setFromCacheTrue h refs).mem x = h.mem x := by
  induction refs with
  | nil => intro h x _; rfl
  | cons r rs ih =>
    intro h x hx
    have hxr : x ≠ r := fun hxr => hx (hxr ▸ List.mem_cons_self r rs)
    have hxs : x ∉ rs := fun hxs => hx (List.mem_cons_of_mem r hxs)
    show (setFromCacheTrue _ rs).mem x = h.mem x
    rw [ih _ x hxs]
    simp only []
    rw [if_neg hxr]

/-- C10: reading the links cache never mutates the stored state. On a hit
the returned references are fresh copies carrying the cached values; after
the caller sets `from_cache = True` on every returned element, the
dictionaries the cached entry points to are unchanged, and a second get
for the same query still returns the original payload values. -/
theorem links_cache_read_immutable (md5hex : String → String)
    (now now' : ℚ) (q : String) (cache : RutubeHeapCache) (h : LinkHeap)
    (e : RutubeHeapEntry)
    (hentry : cache (get_cache_key md5hex q) = some e)
    (hwf : ∀ r ∈ e.links, r < h.next)
    (hfresh : ¬ now - e.timestamp > cacheExpirySeconds)
    (hfresh' : ¬ now' - e.timestamp > cacheExpirySeconds) :
    ∃ out h₁, get_rutube_from_cache_heap md5hex now q cache h = (some out, h₁) ∧
      out.map h₁.mem = e.links.map h.mem ∧
      (∀ r ∈ e.links,
        (setFromCacheTrue h₁ out).mem r = h.mem r) ∧
      ∃ out₂ h₂,
        get_rutube_from_cache_heap md5hex now' q cache
            (setFromCacheTrue h₁ out) = (some out₂, h₂) ∧
        out₂.map h₂.mem = e.links.map h.mem := by
  obtain ⟨cnext, cpres, cout, cmap⟩ := copyLinks_spec e.links h hwf
  have hget : get_rutube_from_cache_heap md5hex now q cache h
      = (some (copyLinks h e.links).1, (copyLinks h e.links).2) := by
    unfold get_rutube_from_cache_heap
    rw [hentry]
    dsimp only
    rw [if_neg hfresh]
  set h₁ := (copyLinks h e.links).2 with hh₁
  set out := (copyLinks h e.links).1 with hout
  have hpres2 : ∀ r ∈ e.links, (setFromCacheTrue h₁ out).mem r = h.mem r := by
    intro r hr
    have hnotmem : r ∉ out := fun hmem =>
      absurd (cout r hmem) (Nat.not_le_of_lt (hwf r hr))
    rw [setFromCacheTrue_mem_of_not_mem out h₁ r hnotmem]
    exact cpres r (hwf r hr)
  have hwf2 : ∀ r ∈ e.links, r < (setFromCacheTrue h₁ out).next := by
    intro r hr
    rw [setFromCacheTrue_next]
    rw [hh₁, cnext]
    exact Nat.lt_of_lt_of_le (hwf r hr) (Nat.le_add_right _ _)
  obtain ⟨dnext, dpres, dout, dmap⟩ :=
    copyLinks_spec e.links (setFromCacheTrue h₁ out) hwf2
  have hget2 : get_rutube_from_cache_heap md5hex now' q cache
      (setFromCacheTrue h₁ out)
      = (some (copyLinks (setFromCacheTrue h₁ out) e.links).1,
          (copyLinks (setFromCacheTrue h₁ out) e.links).2) := by
    unfold get_rutube_from_cache_heap
    rw [hentry]
    dsimp only
    rw [if_neg hfresh']
  refine ⟨out, h₁, hget, cmap, hpres2,
    (copyLinks (setFromCacheTrue h₁ out) e.links).1,
    (copyLinks (setFromCacheTrue h₁ out) e.links).2, hget2, ?_⟩
  rw [dmap]
  exact List.map_congr_left hpres2

/-- C10 witness: one cached link at reference `0` in a one-cell heap. -/
theorem links_cache_read_immutable_witness :
    ((fun k => if k = get_cache_key id "x" then
        some { timestamp := 0, links := [0], original_query := "x" }
      else none : RutubeHeapCache) (get_cache_key id "x")
      = some { timestamp := 0, links := [0], original_query := "x" } ∧
      (∀ r ∈ [0], r < 1) ∧
      ¬ (0 : ℚ) - 0 > cacheExpirySeconds) ∧
    (∃ out h₁,
      get_rutube_from_cache_heap id 0 "x"
          (fun k => if k = get_cache_key id "x" then
            some { timestamp := 0, links := [0], original_query := "x" }
          else none)
          { mem := fun _ => { name := "n", url := "u", from_cache := false }
            next := 1 }
        = (some out, h₁) ∧
      out.map h₁.mem
        = [0].map ({ mem := fun _ => { name := "n", url := "u", from_cache := false }
                     next := 1 } : LinkHeap).mem ∧
      (∀ r ∈ [0],
        (setFromCacheTrue h₁ out).mem r
          = ({ mem := fun _ => { name := "n", url := "u", from_cache := false }
               next := 1 } : LinkHeap).mem r) ∧
      ∃ out₂ h₂,
        get_rutube_from_cache_heap id 0 "x"
            (fun k => if k = get_cache_key id "x" then
              some { timestamp := 0, links := [0], original_query := "x" }
            else none)
            (setFromCacheTrue h₁ out) = (some out₂, h₂) ∧
        out₂.map h₂.mem
          = [0].map ({ mem := fun _ => { name := "n", url := "u", from_cache := false }
                       next := 1 } : LinkHeap).mem) :=
  ⟨⟨by simp, by decide,
    by simp only [cacheExpirySeconds_eq, sub_zero, gt_iff_lt, not_lt]; decide⟩,
    links_cache_read_immutable id 0 0 "x"
      (fun k => if k = get_cache_key id "x" then
        some { timestamp := 0, links := [0], original_query := "x" }
      else none)
      { mem := fun _ => { name := "n", url := "u", from_cache := false }
        next := 1 }
      { timestamp := 0, links := [0], original_query := "x" }
      (by simp) (by decide)
      (by simp only [cacheExpirySeconds_eq, sub_zero, gt_iff_lt, not_lt]; decide)
      (by simp only [cacheExpirySeconds_eq, sub_zero, gt_iff_lt, not_lt]; decide)⟩

/-! C4: the fingerprint's normalisation. The spec describes it as
"lowercase, collapse runs of whitespace to single spaces, trim the ends";
the code computes `' '.join(text.lower().split())`. The spec-side
normalisation is defined below from the spec's words and proved to induce
the code's: two strings with the same lowercase+collapse+trim form have
the same `pySplitWs` word list, hence the same fingerprint. -/

/-- Spec-side: collapse every maximal run of whitespace to a single
space. (Defined from the spec's words, for the refinement statement of
the fingerprint claim; everything else in this file comes from the
code.) -/
def collapseRuns : List Char → List Char
  | [] => []
  | [c] => if isWs c then [' '] else [c]
  | c :: d :: rest =>
    if isWs c then
      if isWs d then collapseRuns (d :: rest)
      else ' ' :: collapseRuns (d :: rest)
    else c :: collapseRuns (d :: rest)

/-- Spec-side: the full normalisation described by the spec — lowercase,
collapse whitespace runs to single spaces, trim the ends. -/
def specNormalizeChars (l : List Char) : List Char :=
  trimWs (collapseRuns (pyLowerChars l))

/-- Spec-side normalisation at the string level. -/
def specNormalize (s : String) : String := ⟨specNormalizeChars s.data⟩

theorem pySplitWs_cons (c : Char) (rest : List Char) :
    pySplitWs (c :: rest)
      = if isWs c then pySplitWs rest
        else
          match rest with
          | [] => [[c]]
          | d :: _ =>
            if isWs d then [c] :: pySplitWs rest
            else
              match pySplitWs rest with
              | [] => [[c]]
              | w :: ws => (c :: w) :: ws := rfl

theorem pySplitWs_all_ws (l : List Char) (h : ∀ c ∈ l, isWs c = true) :
    pySplitWs l = [] := by
  induction l with
  | nil => rfl
  | cons c rest ih =>
    rw [pySplitWs_cons, if_pos (h c (List.mem_cons_self c rest))]
    exact ih (fun d hd => h d (List.mem_cons_of_mem c hd))

theorem pySplitWs_append_ws (xs ys : List Char)
    (hys : ∀ c ∈ ys, isWs c = true) :
    pySplitWs (xs ++ ys) = pySplitWs xs := by
  induction xs with
  | nil => exact pySplitWs_all_ws ys hys
  | cons c xs' ih =>
    show pySplitWs (c :: (xs' ++ ys)) = pySplitWs (c :: xs')
    by_cases hc : isWs c = true
    · rw [pySplitWs_cons, if_pos hc, ih, pySplitWs_cons, if_pos hc]
    · have hc' : isWs c = false := Bool.eq_false_iff.mpr hc
      cases xs' with
      | nil =>
        cases ys with
        | nil => rfl
        | cons y ys' =>
          have hy : isWs y = true := hys y (List.mem_cons_self y ys')
          simp only [List.nil_append]
          rw [pySplitWs_cons c (y :: ys'), if_neg (by simp [hc'])]
          dsimp only
          rw [if_pos hy, pySplitWs_all_ws (y :: ys') hys]
          rw [pySplitWs_cons c [], if_neg (by simp [hc'])]
      | cons d xs'' =>
        have ih' : pySplitWs (d :: (xs'' ++ ys)) = pySplitWs (d :: xs'') := by
          have := ih
          simpa using this
        show pySplitWs (c :: (d :: (xs'' ++ ys))) = _
        rw [pySplitWs_cons c (d :: (xs'' ++ ys)), if_neg (by simp [hc'])]
        rw [pySplitWs_cons c (d :: xs''), if_neg (by simp [hc'])]
        dsimp only
        by_cases hd : isWs d = true
        · rw [if_pos hd, if_pos hd, ih']
        · rw [if_neg hd, if_neg hd, ih']

theorem pySplitWs_dropWhile (l : List Char) :
    pySplitWs (l.dropWhile isWs) = pySplitWs l := by
  induction l with
  | nil => rfl
  | cons c rest ih =>
    by_cases hc : isWs c = true
    · rw [List.dropWhile_cons_of_pos hc, ih, pySplitWs_cons, if_pos hc]
    · rw [List.dropWhile_cons_of_neg (by simp [hc])]

theorem mem_takeWhile_isWs (l : List Char) :
    ∀ c ∈ List.takeWhile isWs l, isWs c = true := by
  induction l with
  | nil => intro c hc; simp at hc
  | cons a rest ih =>
    intro c hc
    by_cases ha : isWs a = true
    · rw [List.takeWhile_cons_of_pos ha] at hc
      rcases List.mem_cons.mp hc with rfl | hc
      · exact ha
      · exact ih c hc
    · rw [List.takeWhile_cons_of_neg (by simp [ha])] at hc
      simp at hc

theorem pySplitWs_trimWs (l : List Char) :
    pySplitWs (trimWs l) = pySplitWs l := by
  unfold trimWs
  set m := l.dropWhile isWs with hm
  have hsplit : m = (m.reverse.dropWhile isWs).reverse
      ++ (m.reverse.takeWhile isWs).reverse := by
    have := List.takeWhile_append_dropWhile (p := isWs) (l := m.reverse)
    calc m = m.reverse.reverse := by rw [List.reverse_reverse]
    _ = (m.reverse.takeWhile isWs ++ m.reverse.dropWhile isWs).reverse := by
        rw [this]
    _ = (m.reverse.dropWhile isWs).reverse
        ++ (m.reverse.takeWhile isWs).reverse := by
        rw [List.reverse_append]
  have hws : ∀ c ∈ (m.reverse.takeWhile isWs).reverse, isWs c = true := by
    intro c hc
    exact mem_takeWhile_isWs m.reverse c (List.mem_reverse.mp hc)
  calc pySplitWs (m.reverse.dropWhile isWs).reverse
      = pySplitWs ((m.reverse.dropWhile isWs).reverse
          ++ (m.reverse.takeWhile isWs).reverse) :=
        (pySplitWs_append_ws _ _ hws).symm
    _ = pySplitWs m := by rw [← hsplit]
    _ = pySplitWs l := pySplitWs_dropWhile l

theorem collapseRuns_two (c d : Char) (rest : List Char) :
    collapseRuns (c :: d :: rest)
      = if isWs c then
          if isWs d then collapseRuns (d :: rest)
          else ' ' :: collapseRuns (d :: rest)
        else c :: collapseRuns (d :: rest) := rfl

theorem collapseRuns_head_ws :
    ∀ (l : List Char) (d : Char), isWs d = true →
      ∃ Y, collapseRuns (d :: l) = ' ' :: Y := by
  intro l
  induction l with
  | nil => intro d hd; exact ⟨[], by simp [collapseRuns, hd]⟩
  | cons e s ih =>
    intro d hd
    rw [collapseRuns_two, if_pos hd]
    by_cases he : isWs e = true
    · rw [if_pos he]
      exact ih e he
    · rw [if_neg he]
      exact ⟨collapseRuns (e :: s), rfl⟩

theorem collapseRuns_head_not_ws (l : List Char) (d : Char)
    (hd : isWs d = false) :
    ∃ Y, collapseRuns (d :: l) = d :: Y := by
  cases l with
  | nil => exact ⟨[], by simp [collapseRuns, hd]⟩
  | cons e s =>
    rw [collapseRuns_two, if_neg (by simp [hd])]
    exact ⟨collapseRuns (e :: s), rfl⟩

theorem pySplitWs_collapseRuns :
    ∀ l : List Char, pySplitWs (collapseRuns l) = pySplitWs l
  | [] => rfl
  | [c] => by
    by_cases hc : isWs c = true
    · show pySplitWs (collapseRuns [c]) = pySplitWs [c]
      rw [show collapseRuns [c] = if isWs c then [' '] else [c] from rfl]
      rw [if_pos hc]
      rw [pySplitWs_cons, if_pos (by decide)]
      rw [pySplitWs_cons, if_pos hc]
    · show pySplitWs (collapseRuns [c]) = pySplitWs [c]
      rw [show collapseRuns [c] = if isWs c then [' '] else [c] from rfl]
      rw [if_neg hc]
  | c :: d :: rest => by
    have ih := pySplitWs_collapseRuns (d :: rest)
    rw [collapseRuns_two]
    by_cases hc : isWs c = true
    · rw [if_pos hc]
      by_cases hd : isWs d = true
      · rw [if_pos hd, ih, pySplitWs_cons c (d :: rest), if_pos hc]
      · rw [if_neg hd]
        rw [pySplitWs_cons ' ' (collapseRuns (d :: rest)),
          if_pos (show isWs ' ' = true by decide)]
        rw [ih, pySplitWs_cons c (d :: rest), if_pos hc]
    · have hc' : isWs c = false := Bool.eq_false_iff.mpr hc
      rw [if_neg hc]
      by_cases hd : isWs d = true
      · obtain ⟨Y, hY⟩ := collapseRuns_head_ws rest d hd
        rw [hY]
        rw [pySplitWs_cons c (' ' :: Y), if_neg (by simp [hc'])]
        dsimp only
        rw [if_pos (show isWs ' ' = true by decide)]
        rw [← hY, ih]
        rw [pySplitWs_cons c (d :: rest), if_neg (by simp [hc'])]
        dsimp only
        rw [if_pos hd]
      · have hd' : isWs d = false := Bool.eq_false_iff.mpr hd
        obtain ⟨Y, hY⟩ := collapseRuns_head_not_ws rest d hd'
        rw [hY]
        rw [pySplitWs_cons c (d :: Y), if_neg (by simp [hc'])]
        dsimp only
        rw [if_neg (by simp [hd'])]
        rw [← hY, ih]
        rw [pySplitWs_cons c (d :: rest), if_neg (by simp [hc'])]
        dsimp only
        rw [if_neg (by simp [hd'])]

/-- The word list of the code's normalisation is already determined by the
spec's normalised form. -/
theorem pySplitWs_specNormalize (l : List Char) :
    pySplitWs (specNormalizeChars l) = pySplitWs (pyLowerChars l) := by
  unfold specNormalizeChars
  rw [pySplitWs_trimWs, pySplitWs_collapseRuns]

/-- C4: `get_cache_key` is a pure function of its argument (definitional
in this embedding), and any two strings with the same spec-side
normalisation — lowercase, whitespace runs collapsed to single spaces,
ends trimmed — receive the same fingerprint, for every digest function. -/
theorem fingerprint_normalization_congruence (md5hex : String → String)
    (a b : String) (h : specNormalize a = specNormalize b) :
    get_cache_key md5hex a = get_cache_key md5hex b := by
  have hd : specNormalizeChars a.data = specNormalizeChars b.data :=
    congrArg String.data h
  have hw : pySplitWs (pyLowerChars a.data) = pySplitWs (pyLowerChars b.data) := by
    rw [← pySplitWs_specNormalize a.data, ← pySplitWs_specNormalize b.data, hd]
  unfold get_cache_key normalizeQuery normalizeChars
  rw [hw]

/-- C4 witness: `"Matrix "` and `" matrix"` normalise identically and get
the same fingerprint. -/
theorem fingerprint_normalization_congruence_witness :
    specNormalize "Matrix " = specNormalize " matrix" ∧
    get_cache_key id "Matrix " = get_cache_key id " matrix" :=
  ⟨by decide,
    fingerprint_normalization_congruence id "Matrix " " matrix" (by decide)⟩

end Cimenabot
